import Mathlib

/-!
Verification of the photo-organize tool (two near-duplicate script variants:
photo-organize.js and the unnamed draft, called the inline variant below).
The program scans a directory, filters files by extension, resolves each
photo's date from exif metadata (falling back to the filesystem mtime), and
copies or moves each file into outputRoot/<year>/<month-number> - <month-name>/.

The embedding models:
  - node path helpers (basename, extname, dirname, join) on character lists;
  - the moment-based date value and the exif timestamp parser;
  - getDateFromExif, the date-selection fallback, getNewFilePath and the
    inline destination computation of the second variant;
  - the per-file executor (collision check, copy via fs-extra copy which
    creates the destination directory, move via fs.rename which does not)
    over an explicit filesystem state;
  - the configuration-error exit behaviour of processInput.
-/

namespace PhotoOrganize

/-! ## node path helpers, modelled on character lists -/

/-- Trailing path separators, as node strips them before taking a basename. -/
def dropTrailingSlashes (l : List Char) : List Char :=
  (l.reverse.dropWhile (fun c => c == '/')).reverse

/-- The segment after the last separator: model of the tail step of
node path.basename. -/
def afterLastSlash (l : List Char) : List Char :=
  (l.reverse.takeWhile (fun c => c != '/')).reverse

/-- Characters of node path.basename: strip trailing separators, then keep
the segment after the last remaining separator. -/
def basenameChars (l : List Char) : List Char :=
  afterLastSlash (dropTrailingSlashes l)

/-- node path.basename (posix). -/
def basename (p : String) : String :=
  ⟨basenameChars p.data⟩

/-- node path.extname (posix): the suffix of the basename from its last dot,
or empty when the basename has no dot or only a leading dot (hidden files).
Names made solely of dots are modelled approximately; they never reach the
extension filter in this program. -/
def extnameChars (l : List Char) : List Char :=
  let b := basenameChars l
  let r := b.reverse
  let ext := r.takeWhile (fun c => c != '.')
  if ext.length = r.length then []
  else if ext.length + 1 = r.length then []
  else '.' :: ext.reverse

/-- node path.extname (posix). -/
def extname (p : String) : String :=
  ⟨extnameChars p.data⟩

/-- Characters of node path.dirname: everything before the last separator,
"." when there is none, "/" when only the leading separator remains. -/
def dirnameChars (l : List Char) : List Char :=
  let l2 := dropTrailingSlashes l
  let r := l2.reverse.dropWhile (fun c => c != '/')
  match r with
  | [] => ['.']
  | _ :: rest =>
    let pre := rest.dropWhile (fun c => c == '/')
    match pre with
    | [] => ['/']
    | _ => pre.reverse

/-- node path.dirname (posix). -/
def dirname (p : String) : String :=
  ⟨dirnameChars p.data⟩

/-- node path.join for two already-normalized components: empty parts are
ignored, otherwise the parts are glued with one separator. -/
def pathJoin (a b : String) : String :=
  if a = "" then b else if b = "" then a else a ++ "/" ++ b

/-- node path.resolve, modelled as the identity: the program hands it paths
that are already absolute or rooted at the input directory, and no claim
depends on working-directory resolution. -/
def pathResolve (p : String) : String := p

/-! ## The date value and the exif timestamp parser -/

/-- A valid moment instant, reduced to the calendar components the program
reads: year, zero-based month (as moment month() returns it), day, hour,
minute, second. -/
structure MomentDate where
  year : Nat
  month0 : Fin 12
  day : Nat
  hour : Nat
  minute : Nat
  second : Nat
deriving DecidableEq, Repr

/-- Split a character list at every occurrence of the separator. -/
def splitOnChar (sep : Char) : List Char → List (List Char)
  | [] => [[]]
  | c :: rest =>
    match splitOnChar sep rest with
    | [] => [[]]
    | g :: gs => if c = sep then [] :: g :: gs else (c :: g) :: gs

/-- A nonempty all-digit group read as a number; none otherwise. -/
def digitsToNat (l : List Char) : Option Nat :=
  if l.isEmpty then none
  else if l.all Char.isDigit then
    some (l.foldl (fun acc c => acc * 10 + (c.toNat - 48)) 0)
  else none

def leapYear (y : Nat) : Bool :=
  y % 4 = 0 && (y % 100 != 0 || y % 400 = 0)

/-- Days in the 1-based month `m` of year `y`, as moment overflow checking
uses it. -/
def daysInMonth (y m : Nat) : Nat :=
  if m = 2 then (if leapYear y then 29 else 28)
  else if m = 4 ∨ m = 6 ∨ m = 9 ∨ m = 11 then 30
  else 31

/-- moment(dateString, "YYYY:MM:DD HH:mm:ss"): the colon-separated date, one
space, the colon-separated time; a component that is not a number, a month
outside 1..12, a day outside the month, or an out-of-range time component
yields an invalid moment (none). moment is lenient about separator
characters; the claims only distinguish parse success from failure, so the
format is modelled as written. -/
def parseExifDate (s : String) : Option MomentDate :=
  match splitOnChar ' ' s.data with
  | [dPart, tPart] =>
    match splitOnChar ':' dPart, splitOnChar ':' tPart with
    | [ys, ms, ds], [hs, mins, ss] =>
      match digitsToNat ys, digitsToNat ms, digitsToNat ds,
            digitsToNat hs, digitsToNat mins, digitsToNat ss with
      | some y, some mo, some da, some hr, some mi, some se =>
        if h : 1 ≤ mo ∧ mo ≤ 12 then
          if 1 ≤ da ∧ da ≤ daysInMonth y mo ∧ hr ≤ 23 ∧ mi ≤ 59 ∧ se ≤ 59 then
            some ⟨y, ⟨mo - 1, by omega⟩, da, hr, mi, se⟩
          else none
        else none
      | _, _, _, _, _, _ => none
    | _, _ => none
  | _ => none

/-- moment.months(): the fixed English month list. -/
def monthNames : List String :=
  ["January", "February", "March", "April", "May", "June",
   "July", "August", "September", "October", "November", "December"]

/-! ## getDateFromExif and the date-selection fallback -/

/-- The exif fields the callback reads: exifData.exif.DateTimeOriginal and
exifData.exif.DateTime, each possibly absent. -/
structure ExifData where
  DateTimeOriginal : Option String
  DateTime : Option String
deriving DecidableEq, Repr

/-- The JS value getDateFromExif resolves with: null (on a read error), or a
moment that is either valid (some date) or invalid (none). -/
inductive ExifDate where
  | null : ExifDate
  | m : Option MomentDate → ExifDate
deriving DecidableEq, Repr

/-- getDateFromExif, identical in both variants, modelled on the result of
the exif library read (none = the callback got an error): on error resolve
null; otherwise take DateTimeOriginal when defined, else DateTime when
defined, else leave dateString undefined (moment(undefined, format) is
invalid), and resolve the parsed moment. photo-organize.js omits the
deferred declaration but the data flow it writes is the same. -/
def getDateFromExif : Option ExifData → ExifDate
  | none => ExifDate.null
  | some ed =>
    match ed.DateTimeOriginal with
    | some s => ExifDate.m (parseExifDate s)
    | none =>
      match ed.DateTime with
      | some s => ExifDate.m (parseExifDate s)
      | none => ExifDate.m none

/-- The date-selection step both variants write inline:
exifDate "!=" null and exifDate.isValid() selects the exif moment, anything
else falls back to moment(fs.statSync(origFilePath).mtime). -/
def resolveDate (exifDate : ExifDate) (mtime : MomentDate) : MomentDate :=
  match exifDate with
  | ExifDate.m (some d) => d
  | _ => mtime

/-! ## Destination path computation -/

/-- path.join(date.year().toString(), (date.month() + 1).toString()
++ " - " ++ moment.months()[date.month()]). -/
def datePath (date : MomentDate) : String :=
  pathJoin (toString date.year)
    (toString (date.month0.val + 1) ++ " - " ++ monthNames.getD date.month0.val "")

/-- getNewFilePath of photo-organize.js, with the module state (outputDir)
and the statSync mtime read passed explicitly: select the date (exif moment
when non-null and valid, else the mtime), then
path.join(outputDir, datePath, path.basename(origFilePath)). -/
def getNewFilePath (outputDir origFilePath : String) (exifDate : ExifDate)
    (mtime : MomentDate) : String :=
  let date :=
    match exifDate with
    | ExifDate.m (some d) => d
    | _ => mtime
  pathJoin (pathJoin outputDir (datePath date)) (basename origFilePath)

/-- The same computation as the inline variant writes it inside processFiles:
origFilePath = path.resolve(file), the same date selection, the same joins. -/
def processFilesNewFilePath (outputDir file : String) (exifDate : ExifDate)
    (mtime : MomentDate) : String :=
  let origFilePath := pathResolve file
  let date :=
    match exifDate with
    | ExifDate.m (some d) => d
    | _ => mtime
  pathJoin (pathJoin outputDir (datePath date)) (basename origFilePath)

/-! ## Extension filter -/

def validExtensions : List String := [".jpg", ".jpeg"]

/-- JS String.prototype.toLowerCase on one character, for the ASCII range the
extension comparison exercises. -/
def charToLower (c : Char) : Char :=
  if 65 ≤ c.toNat ∧ c.toNat ≤ 90 then Char.ofNat (c.toNat + 32) else c

/-- JS String.prototype.toLowerCase (ASCII range). -/
def toLowerAscii (s : String) : String :=
  ⟨s.data.map charToLower⟩

/-- validFile, identical in both variants: the extension of the file,
lower-cased, is one of the valid extensions. -/
def validFile (file : String) : Bool :=
  validExtensions.contains (toLowerAscii (extname file))

/-! ## The per-file executor over an explicit filesystem state -/

/-- The command-line switches the executor reads. -/
structure Options where
  dry : Bool
  move : Bool
deriving DecidableEq, Repr

/-- The filesystem the run mutates: the regular files (path to contents) and
the set of existing directories. Ancestor directories of a created directory
are elided; no claim depends on them. -/
structure FS where
  files : String → Option String
  dirs : String → Bool

/-- One winston line, tagged with the level the source calls. -/
inductive LogEntry where
  | info (msg : String)
  | warn (msg : String)
  | error (msg : String)
  | log (msg : String)
  | debug (msg : String)
deriving DecidableEq, Repr

/-- The per-file block of processFiles once origFilePath and newFilePath are
known (the `process` function of photo-organize.js differs only in the log
levels of the move messages):
  - dry: the whole block is skipped, nothing runs and nothing is printed;
  - fs.stat(newFilePath) succeeds (a file or directory is already there):
    warn and do nothing;
  - copy mode: fs-extra copy, which creates the destination directory when
    missing and then writes the new file; an I/O failure (modelled: missing
    source) is logged at error level and leaves the state unchanged;
  - move mode: fs.rename, which fails when the source is missing or when the
    destination directory does not exist (rename creates no directories); a
    failure is logged via winston.log, success via winston.error (as the
    source writes it). -/
def processFile (opts : Options) (fs : FS) (origFilePath newFilePath : String) :
    FS × List LogEntry :=
  if opts.dry then (fs, [])
  else
    if (fs.files newFilePath).isSome || fs.dirs newFilePath then
      (fs, [LogEntry.warn ("Cannot move or copy file " ++ origFilePath ++ " to "
        ++ newFilePath ++ " because the filename already exists")])
    else
      if !opts.move then
        match fs.files origFilePath with
        | some content =>
          ({ files := fun q => if q = newFilePath then some content else fs.files q,
             dirs := fun d => if d = dirname newFilePath then true else fs.dirs d },
           [LogEntry.info (origFilePath ++ " copied to " ++ newFilePath)])
        | none =>
          (fs, [LogEntry.error ("Error copying " ++ origFilePath ++ ": ENOENT")])
      else
        match fs.files origFilePath with
        | some content =>
          if fs.dirs (dirname newFilePath) then
            ({ files := fun q => if q = newFilePath then some content
                 else if q = origFilePath then none else fs.files q,
               dirs := fs.dirs },
             [LogEntry.error (origFilePath ++ " moved to " ++ newFilePath)])
          else
            (fs, [LogEntry.log ("Error moving " ++ origFilePath ++ ": ENOENT")])
        | none =>
          (fs, [LogEntry.log ("Error moving " ++ origFilePath ++ ": ENOENT")])

/-- processFiles of the inline variant: filter by validFile, then run the
per-file block on each candidate in order, threading the filesystem and
appending the log. The exif read and the statSync mtime are supplied as
functions of the file path. -/
def processFiles (opts : Options) (outputDir : String)
    (exifOf : String → Option ExifData) (mtimeOf : String → MomentDate)
    (fs : FS) (files : List String) : FS × List LogEntry :=
  (files.filter validFile).foldl
    (fun acc file =>
      let exifDate := getDateFromExif (exifOf file)
      let origFilePath := pathResolve file
      let newFilePath :=
        processFilesNewFilePath outputDir file exifDate (mtimeOf origFilePath)
      let r := processFile opts acc.1 origFilePath newFilePath
      (r.1, acc.2 ++ r.2))
    (fs, [])

/-! ## Configuration errors and the exit code -/

/-- What fs.stat(inputDir) found. -/
inductive StatOutcome where
  | err : StatOutcome
  | notDir : StatOutcome
  | dir : StatOutcome
deriving DecidableEq, Repr

/-- The exit code of a run of the inline variant, as a function of the
positional-argument count, the stat of inputDir and whether ensureDir on
outputDir succeeded:
  - more than two positional arguments: winston.error and process.exit(1);
  - fs.stat(inputDir) rejects (missing input): the catch calls
    process.exit(1);
  - stat succeeds but is not a directory: only winston.error runs, the
    process continues (readdir then fails and is merely logged) and finishes
    with code 0;
  - fs.ensureDir(outputDir) rejects: its catch calls process.exit(1);
  - otherwise the run completes with code 0 (per-file errors are logged
    inside processFiles and never exit). -/
def runExitCode (nargs : Nat) (inputStat : StatOutcome) (ensureDirOk : Bool) : Nat :=
  if nargs > 2 then 1
  else
    match inputStat with
    | StatOutcome.err => 1
    | _ => if ensureDirOk then 0 else 1

/-! ## Concrete fixtures used by witnesses and counterexample runs -/

/-- A fallback mtime: 2000-01-01 00:00:00. -/
def sampleMtime : MomentDate := ⟨2000, ⟨0, by decide⟩, 1, 0, 0, 0⟩

/-- The exif capture time of the scenario in the spec: 2021-03-15 06:10:00. -/
def marchDate : MomentDate := ⟨2021, ⟨2, by decide⟩, 15, 6, 10, 0⟩

/-- A different instant in the same month bucket: 2021-03-31 23:59:59. -/
def lateMarchDate : MomentDate := ⟨2021, ⟨2, by decide⟩, 31, 23, 59, 59⟩

/-- A filesystem where the destination file already exists. -/
def collisionFS : FS :=
  ⟨fun q => if q = "out/2021/3 - March/IMG_0001.jpg" then some "OLD"
    else if q = "/in/IMG_0001.jpg" then some "NEW" else none,
   fun d => d == "out"⟩

/-- A fresh run: the source photo exists and ensureDir created only the
output root, no month subdirectory yet. -/
def freshOutFS : FS :=
  ⟨fun q => if q = "/in/a.jpg" then some "DATA" else none, fun d => d == "out"⟩

/-- The same filesystem after the month subdirectory exists (for instance
created by an earlier copy-mode run). -/
def readyOutFS : FS :=
  ⟨fun q => if q = "/in/a.jpg" then some "DATA" else none,
   fun d => d == "out" || d == "out/2021/3 - March"⟩

/-! ## Helper lemmas about basename and pathJoin -/

lemma takeWhile_all {p : Char → Bool} : ∀ {l : List Char},
    (∀ c ∈ l, p c = true) → l.takeWhile p = l := by
  intro l h
  induction l with
  | nil => rfl
  | cons c t ih =>
    rw [List.takeWhile_cons_of_pos (h c (List.mem_cons_self c t))]
    rw [ih (fun x hx => h x (List.mem_cons_of_mem _ hx))]

lemma takeWhile_append_stop {p : Char → Bool} {l m : List Char} {x : Char}
    (hl : ∀ c ∈ l, p c = true) (hx : p x = false) :
    (l ++ x :: m).takeWhile p = l := by
  rw [List.takeWhile_append_of_pos hl]
  rw [List.takeWhile_cons_of_neg (by simp [hx])]
  simp

lemma mem_basenameChars_ne_slash {l : List Char} : ∀ c ∈ basenameChars l, c ≠ '/' := by
  intro c hc
  rw [basenameChars, afterLastSlash, List.mem_reverse] at hc
  have h2 := List.mem_takeWhile_imp hc
  simpa using h2

lemma basenameChars_of_noSlash {l : List Char} (h : ∀ c ∈ l, c ≠ '/') :
    basenameChars l = l := by
  rw [basenameChars, dropTrailingSlashes, afterLastSlash]
  have h1 : l.reverse.dropWhile (fun c => c == '/') = l.reverse := by
    cases hr : l.reverse with
    | nil => rfl
    | cons a t =>
      apply List.dropWhile_cons_of_neg
      have ha : a ∈ l := List.mem_reverse.mp (by rw [hr]; exact List.mem_cons_self a t)
      simp [h a ha]
  rw [h1, List.reverse_reverse]
  rw [takeWhile_all (p := fun c => c != '/')
    (fun c hc => by simp [h c (List.mem_reverse.mp hc)])]
  exact List.reverse_reverse l

lemma basename_of_noSlash {b : String} (h : ∀ c ∈ b.data, c ≠ '/') : basename b = b := by
  show (⟨basenameChars b.data⟩ : String) = b
  rw [basenameChars_of_noSlash h]

lemma basename_append_noSlash (a b : String) (hb : b.data ≠ [])
    (h : ∀ c ∈ b.data, c ≠ '/') :
    basename (a ++ "/" ++ b) = b := by
  have hdata : (a ++ "/" ++ b).data = a.data ++ '/' :: b.data := by
    rw [String.data_append, String.data_append]
    simp
  show (⟨basenameChars (a ++ "/" ++ b).data⟩ : String) = b
  rw [hdata]
  rw [basenameChars, dropTrailingSlashes, afterLastSlash]
  have hrev : (a.data ++ '/' :: b.data).reverse = b.data.reverse ++ '/' :: a.data.reverse := by
    simp
  rw [hrev]
  obtain ⟨x, t, hxt⟩ := List.exists_cons_of_ne_nil (by simpa using hb :
    b.data.reverse ≠ [])
  have hx : x ∈ b.data := List.mem_reverse.mp (by rw [hxt]; exact List.mem_cons_self x t)
  rw [hxt, List.cons_append]
  rw [List.dropWhile_cons_of_neg (by simp [h x hx])]
  rw [← List.cons_append, ← hxt, List.reverse_reverse]
  rw [takeWhile_append_stop (fun c hc => by simp [h c (List.mem_reverse.mp hc)]) (by simp)]
  rw [List.reverse_reverse]

lemma basename_data_ne_slash (p : String) : ∀ c ∈ (basename p).data, c ≠ '/' :=
  fun c hc => mem_basenameChars_ne_slash c hc

lemma basename_pathJoin (x b : String) (hb : b ≠ "") (h : ∀ c ∈ b.data, c ≠ '/') :
    basename (pathJoin x b) = b := by
  by_cases hx : x = ""
  · rw [pathJoin, if_pos hx]
    exact basename_of_noSlash h
  · have hbd : b.data ≠ [] := fun hh => hb (String.ext hh)
    rw [pathJoin, if_neg hx, if_neg hb]
    exact basename_append_noSlash x b hbd h

/-! ## The claims -/

/-- Claim C1: for a file whose exif metadata carries a DateTimeOriginal field
that parses under the fixed format, getDateFromExif resolves exactly the
moment parsed from that field; the generic DateTime field is not consulted
(changing it changes nothing), and the mtime plays no role in the resolved
date. -/
theorem getDateFromExif_prefers_dateTimeOriginal (ed : ExifData) (s : String)
    (d : MomentDate) (mt mt2 : MomentDate)
    (hs : ed.DateTimeOriginal = some s) (hp : parseExifDate s = some d) :
    getDateFromExif (some ed) = ExifDate.m (some d) ∧
    resolveDate (getDateFromExif (some ed)) mt = d ∧
    (∀ x, getDateFromExif (some { ed with DateTime := x }) = getDateFromExif (some ed)) ∧
    resolveDate (getDateFromExif (some ed)) mt = resolveDate (getDateFromExif (some ed)) mt2 := by
  have h1 : getDateFromExif (some ed) = ExifDate.m (some d) := by
    simp [getDateFromExif, hs, hp]
  refine ⟨h1, by rw [h1]; rfl, ?_, by rw [h1]; rfl⟩
  intro x
  simp [getDateFromExif, hs]

/-- Witness for C1 at the scenario timestamp, with a decoy DateTime field. -/
theorem getDateFromExif_prefers_dateTimeOriginal_witness :
    resolveDate (getDateFromExif
      (some ⟨some "2021:03:15 06:10:00", some "1999:01:01 00:00:00"⟩)) sampleMtime
    = marchDate :=
  (getDateFromExif_prefers_dateTimeOriginal
    ⟨some "2021:03:15 06:10:00", some "1999:01:01 00:00:00"⟩
    "2021:03:15 06:10:00" marchDate sampleMtime sampleMtime rfl (by decide)).2.1

/-- Claim C2: when the exif read errors (null), when both timestamp fields
are absent, or when the consulted field fails to parse, the resolved date is
the filesystem mtime; the error is never fatal and the resolution always
produces a date (resolveDate is total by construction). -/
theorem resolveDate_falls_back_to_mtime (ed : ExifData) (mt : MomentDate) :
    resolveDate (getDateFromExif none) mt = mt ∧
    (ed.DateTimeOriginal = none → ed.DateTime = none →
      resolveDate (getDateFromExif (some ed)) mt = mt) ∧
    (∀ s, ed.DateTimeOriginal = some s → parseExifDate s = none →
      resolveDate (getDateFromExif (some ed)) mt = mt) ∧
    (∀ s, ed.DateTimeOriginal = none → ed.DateTime = some s → parseExifDate s = none →
      resolveDate (getDateFromExif (some ed)) mt = mt) := by
  refine ⟨rfl, ?_, ?_, ?_⟩
  · intro h1 h2
    simp [getDateFromExif, resolveDate, h1, h2]
  · intro s h1 h2
    simp [getDateFromExif, resolveDate, h1, h2]
  · intro s h1 h2 h3
    simp [getDateFromExif, resolveDate, h1, h2, h3]

/-- Witness for C2: an exif read error and an unparsable timestamp both fall
back to the mtime. -/
theorem resolveDate_falls_back_to_mtime_witness :
    resolveDate (getDateFromExif none) sampleMtime = sampleMtime ∧
    resolveDate (getDateFromExif (some ⟨some "not a date", none⟩)) sampleMtime
      = sampleMtime :=
  ⟨(resolveDate_falls_back_to_mtime ⟨none, none⟩ sampleMtime).1,
   (resolveDate_falls_back_to_mtime ⟨some "not a date", none⟩ sampleMtime).2.2.1
     "not a date" rfl (by decide)⟩

/-- Claim C3: a photo with capture time 2021:03:15 06:10:00 and output root
out is placed at out/2021/3 - March/IMG_0001.jpg whatever the mtime is, and
in general the destination depends only on the year and month of the
resolved date: no day or hour (in particular no day-starts-at-5am rule)
ever changes the directory. -/
theorem getNewFilePath_year_month_bucket :
    (∀ mt : MomentDate,
      getNewFilePath "out" "/in/IMG_0001.jpg"
        (ExifDate.m (parseExifDate "2021:03:15 06:10:00")) mt
      = "out/2021/3 - March/IMG_0001.jpg") ∧
    (∀ (out p : String) (mt d d2 : MomentDate), d.year = d2.year → d.month0 = d2.month0 →
      getNewFilePath out p (ExifDate.m (some d)) mt
      = getNewFilePath out p (ExifDate.m (some d2)) mt) := by
  constructor
  · intro mt
    have hp : parseExifDate "2021:03:15 06:10:00" = some marchDate := by decide
    rw [hp]
    show pathJoin (pathJoin "out" (datePath marchDate)) (basename "/in/IMG_0001.jpg") = _
    decide
  · intro out p mt d d2 hy hm
    have hdp : datePath d = datePath d2 := by rw [datePath, datePath, hy, hm]
    show pathJoin (pathJoin out (datePath d)) (basename p)
      = pathJoin (pathJoin out (datePath d2)) (basename p)
    rw [hdp]

/-- Witness for C3: 06:10:00 on the 15th and 23:59:59 on the 31st of the same
month land in the same destination. -/
theorem getNewFilePath_year_month_bucket_witness :
    getNewFilePath "out" "/in/IMG_0001.jpg" (ExifDate.m (some marchDate)) sampleMtime
    = getNewFilePath "out" "/in/IMG_0001.jpg" (ExifDate.m (some lateMarchDate)) sampleMtime :=
  (getNewFilePath_year_month_bucket).2 "out" "/in/IMG_0001.jpg" sampleMtime
    marchDate lateMarchDate rfl rfl

/-- Claim C4: when a file already exists at the destination and dry-run is
off, the per-file step only records the collision warning and changes
nothing; and under every option combination the existing destination file
keeps its contents and the source entry is untouched. -/
theorem existing_destination_never_overwritten (opts : Options) (fs : FS)
    (o n c : String) (hc : fs.files n = some c) :
    (opts.dry = false →
      processFile opts fs o n =
        (fs, [LogEntry.warn ("Cannot move or copy file " ++ o ++ " to " ++ n
          ++ " because the filename already exists")])) ∧
    (processFile opts fs o n).1.files n = some c ∧
    (processFile opts fs o n).1.files o = fs.files o := by
  obtain ⟨dry, move⟩ := opts
  cases dry <;> simp [processFile, hc]

/-- Witness for C4: a move over an occupied destination leaves the old
contents in place. -/
theorem existing_destination_never_overwritten_witness :
    (processFile ⟨false, true⟩ collisionFS "/in/IMG_0001.jpg"
      "out/2021/3 - March/IMG_0001.jpg").1.files "out/2021/3 - March/IMG_0001.jpg"
    = some "OLD" :=
  (existing_destination_never_overwritten ⟨false, true⟩ collisionFS
    "/in/IMG_0001.jpg" "out/2021/3 - March/IMG_0001.jpg" "OLD" (by decide)).2.1

/-- Claim C5 (code bug): on a fresh output tree the move option does not
relocate the file: fs.rename needs the destination directory to exist and
the program creates only the output root, so the rename fails with an error
log, the source stays and the destination stays absent; copy mode at the
same state succeeds (fs-extra copy creates the directory), and the same
move succeeds once the month directory exists. -/
theorem move_rename_fails_without_destination_dir :
    (processFile ⟨false, true⟩ freshOutFS "/in/a.jpg"
      "out/2021/3 - March/a.jpg").1.files "/in/a.jpg" = some "DATA" ∧
    (processFile ⟨false, true⟩ freshOutFS "/in/a.jpg"
      "out/2021/3 - March/a.jpg").1.files "out/2021/3 - March/a.jpg" = none ∧
    (processFile ⟨false, true⟩ freshOutFS "/in/a.jpg"
      "out/2021/3 - March/a.jpg").2 = [LogEntry.log ("Error moving /in/a.jpg: ENOENT")] ∧
    (processFile ⟨false, false⟩ freshOutFS "/in/a.jpg"
      "out/2021/3 - March/a.jpg").1.files "out/2021/3 - March/a.jpg" = some "DATA" ∧
    (processFile ⟨false, false⟩ freshOutFS "/in/a.jpg"
      "out/2021/3 - March/a.jpg").1.files "/in/a.jpg" = some "DATA" ∧
    (processFile ⟨false, true⟩ readyOutFS "/in/a.jpg"
      "out/2021/3 - March/a.jpg").1.files "/in/a.jpg" = none ∧
    (processFile ⟨false, true⟩ readyOutFS "/in/a.jpg"
      "out/2021/3 - March/a.jpg").1.files "out/2021/3 - March/a.jpg" = some "DATA" := by
  decide

/-- Claim C6 (code bug): with the dry option the per-file block mutates
nothing, but it also emits no log line at all: the promised planned-action
output (source to destination) does not exist in the code. -/
theorem dry_run_no_mutation_and_no_log (m : Bool) (fs : FS) (o n : String) :
    processFile ⟨true, m⟩ fs o n = (fs, []) := rfl

/-- Claim C7: a directory entry is a candidate exactly when its extension,
lower-cased, is .jpg or .jpeg; an entry failing the filter is dropped before
any processing, leaving the filesystem untouched and the log empty. -/
theorem validFile_jpg_jpeg_only (file : String) :
    (validFile file = true ↔
      toLowerAscii (extname file) = ".jpg" ∨ toLowerAscii (extname file) = ".jpeg") ∧
    (validFile file = false →
      ∀ (opts : Options) (out : String) (exifOf : String → Option ExifData)
        (mtimeOf : String → MomentDate) (fs : FS),
        processFiles opts out exifOf mtimeOf fs [file] = (fs, [])) := by
  constructor
  · constructor
    · intro h
      have hmem : toLowerAscii (extname file) ∈ validExtensions := by
        simpa [validFile, List.contains, List.elem_iff] using h
      simpa [validExtensions] using hmem
    · intro h
      have hmem : toLowerAscii (extname file) ∈ validExtensions := by
        simpa [validExtensions] using h
      simpa [validFile, List.contains, List.elem_iff] using hmem
  · intro h opts out exifOf mtimeOf fs
    simp [processFiles, List.filter, h]

/-- Witness for C7: a .txt entry is processed into nothing. -/
theorem validFile_jpg_jpeg_only_witness :
    processFiles ⟨false, false⟩ "out" (fun _ => none) (fun _ => sampleMtime)
      freshOutFS ["notes.txt"] = (freshOutFS, []) :=
  (validFile_jpg_jpeg_only "notes.txt").2 (by decide) ⟨false, false⟩ "out"
    (fun _ => none) (fun _ => sampleMtime) freshOutFS

/-- Claim C8 (code bug): a missing inputDir, a failing ensureDir and an
excess argument all exit 1, but an inputDir that exists and is not a
directory is only logged: the run continues and finishes with exit code 0,
against the required non-zero abort. -/
theorem exit_code_zero_when_input_not_directory :
    runExitCode 2 StatOutcome.notDir true = 0 ∧
    runExitCode 2 StatOutcome.err true = 1 ∧
    runExitCode 3 StatOutcome.dir true = 1 ∧
    runExitCode 2 StatOutcome.dir false = 1 ∧
    runExitCode 2 StatOutcome.dir true = 0 := by
  decide

/-- Claim C9: both variants put the unchanged source basename at the end of
the destination path: the destination basename equals the source basename,
only the containing directory differs. -/
theorem destination_basename_unchanged (out p : String) (e : ExifDate)
    (mt : MomentDate) (hb : basename p ≠ "") :
    basename (getNewFilePath out p e mt) = basename p ∧
    basename (processFilesNewFilePath out p e mt) = basename p :=
  ⟨basename_pathJoin _ _ hb (basename_data_ne_slash p),
   basename_pathJoin _ _ hb (basename_data_ne_slash p)⟩

/-- Witness for C9 on a concrete path with the mtime fallback. -/
theorem destination_basename_unchanged_witness :
    basename (getNewFilePath "out" "/in/IMG_0001.jpg" ExifDate.null sampleMtime)
    = basename "/in/IMG_0001.jpg" :=
  (destination_basename_unchanged "out" "/in/IMG_0001.jpg" ExifDate.null sampleMtime
    (by decide)).1

/-- Claim C10: the destination path the inline variant computes inside
processFiles equals getNewFilePath of photo-organize.js applied to the
resolved source path, for every input, output root, exif outcome and
mtime. -/
theorem inline_variant_same_destination (out f : String) (e : ExifDate) (mt : MomentDate) :
    processFilesNewFilePath out f e mt = getNewFilePath out (pathResolve f) e mt := by
  cases e with
  | null => rfl
  | m o => cases o <;> rfl

end PhotoOrganize
